import Mathlib

/-!
Verification of the execution-context and example-bootstrap behaviour of the
apalis job processing engine, against a shallow embedding of
`packages/apalis-core/src/context.rs` and `examples/sqlite/src/main.rs`.

Rust types are embedded as follows: `http::Extensions` (a type-keyed map,
`TypeId -> Box<dyn Any>`, at most one value per type) becomes an association
list over a type family indexed by `TypeId := Nat`; `&mut self` methods become
state-passing functions returning the updated structure; message sends over an
actix `Recipient` become an explicit list of emitted (address, report) pairs.
-/

set_option autoImplicit false

namespace Apalis

/-- Stand-in for Rust `std::any::TypeId`: an opaque key identifying a type. -/
abbrev TypeId := Nat

/-- Embedding of `http::Extensions`: a type-keyed bag holding at most one value
per type. The family `F` assigns to each `TypeId` the Lean type of values
stored under that key, mirroring the `TypeId -> Box<dyn Any>` map. -/
abbrev Extensions (F : TypeId → Type) := List (Sigma F)

/-- Embedding of `http::Extensions::get`: look up the value stored under type
key `t`, returning `none` when no value of that type was inserted. -/
def Extensions.get {F : TypeId → Type} (t : TypeId) : Extensions F → Option (F t)
  | [] => none
  | e :: rest => if h : e.fst = t then some (h ▸ e.snd) else Extensions.get t rest

/-- Embedding of `http::Extensions::insert`: store `v` under type key `t`,
replacing and returning any previously stored value of the same type. -/
def Extensions.insert {F : TypeId → Type} (t : TypeId) (v : F t) :
    Extensions F → Option (F t) × Extensions F
  | [] => (none, [⟨t, v⟩])
  | e :: rest =>
    if h : e.fst = t then (some (h ▸ e.snd), ⟨t, v⟩ :: rest)
    else
      let r := Extensions.insert t v rest
      (r.fst, e :: r.snd)

/-- Embedding of `JobResult` (declared in `response.rs`, used by `context.rs`):
the terminal disposition of one execution. -/
inductive JobResult where
  | Success
  | Retry
  | Kill
  deriving DecidableEq, Repr

/-- Address of an actix `Recipient<JobReport>` mailbox; opaque to the core. -/
abbrev Addr := Nat

/-- Kind of a Job Report event: progress(percent), completed, or failed. -/
inductive ReportKind where
  | progress (percent : Nat)
  | completed
  | failed
  deriving DecidableEq, Repr

/-- Embedding of `JobReport` (declared in `request.rs`, used by `context.rs`):
an event (job id, kind) sent over the Tracker Channel. -/
structure JobReport where
  job_id : String
  kind : ReportKind
  deriving DecidableEq, Repr

/-- Embedding of the `JobReport::progress(job_id, progress)` constructor used
by `JobTracker::update_progress`. -/
def JobReport.progress (job_id : String) (percent : Nat) : JobReport :=
  { job_id := job_id, kind := ReportKind.progress percent }

/-- Embedding of `JobTracker`: a job id plus the address of a
`Recipient<JobReport>` for sending progress reports. -/
structure JobTracker where
  job_id : String
  addr : Addr
  deriving DecidableEq, Repr

/-- A message emission: the destination address and the report sent to it. -/
abbrev Sent := Addr × JobReport

/-- Embedding of `JobTracker::update_progress`: build one progress report
carrying this tracker's job id and the given percent, and send it to this
tracker's address via `do_send` (the emission is returned as a list). -/
def JobTracker.update_progress (tr : JobTracker) (progress : Nat) : List Sent :=
  [(tr.addr, JobReport.progress tr.job_id progress)]

/-- Semantics of actix `Recipient::do_send` on the receiving side: a mailbox is
`some msgs` while the receiver lives and `none` once it is gone; delivery to a
live mailbox appends the message, delivery to a gone mailbox drops it. The
function is total: it returns normally in both cases, never failing. -/
def do_send (mailbox : Option (List JobReport)) (msg : JobReport) :
    Option (List JobReport) :=
  match mailbox with
  | some msgs => some (msgs ++ [msg])
  | none => none

/-- Embedding of `JobContext`: the per-execution extensions bag plus an
optional tracker handle. -/
structure JobContext (F : TypeId → Type) where
  data : Extensions F
  job_tracker : Option JobTracker

/-- Embedding of `JobContext::new`: empty extensions, no tracker. -/
def JobContext.new (F : TypeId → Type) : JobContext F :=
  { data := [], job_tracker := none }

/-- Embedding of `impl Default for JobContext`, which delegates to `new`. -/
def JobContext.mkDefault (F : TypeId → Type) : JobContext F :=
  JobContext.new F

/-- Embedding of `impl Clone for JobContext`: extensions are not clone, so the
clone starts from `Default::default()` extensions; the tracker is cloned. -/
def JobContext.clone {F : TypeId → Type} (ctx : JobContext F) : JobContext F :=
  { data := [], job_tracker := ctx.job_tracker }

/-- Embedding of `JobContext::data_opt`: read a value previously inserted on
this context under type key `t`. -/
def JobContext.data_opt {F : TypeId → Type} (ctx : JobContext F) (t : TypeId) :
    Option (F t) :=
  ctx.data.get t

/-- Embedding of `JobContext::insert`: insert a value under type key `t` into
the extensions bag; returns the previously stored value of that type (if any)
together with the updated context. -/
def JobContext.insert {F : TypeId → Type} (ctx : JobContext F) (t : TypeId)
    (v : F t) : Option (F t) × JobContext F :=
  let r := ctx.data.insert t v
  (r.fst, { ctx with data := r.snd })

/-- Embedding of `JobContext::set_tracker`: bind a tracker to this context. -/
def JobContext.set_tracker {F : TypeId → Type} (ctx : JobContext F)
    (tracker : JobTracker) : JobContext F :=
  { ctx with job_tracker := some tracker }

/-- Embedding of `JobContext::get_tracker`. -/
def JobContext.get_tracker {F : TypeId → Type} (ctx : JobContext F) :
    Option JobTracker :=
  ctx.job_tracker

/-- Embedding of `JobContext::update_progress`: takes `&self` (the context is
not mutated); if a tracker is bound, forward to the tracker, otherwise do
nothing. The return value is the list of emitted sends. -/
def JobContext.update_progress {F : TypeId → Type} (ctx : JobContext F)
    (progress : Nat) : List Sent :=
  match ctx.job_tracker with
  | some tracker => tracker.update_progress progress
  | none => []

/-- Embedding of `JobContext::ack`: returns `JobResult::Success`; the body
touches no field, so the context comes back unchanged. -/
def JobContext.ack {F : TypeId → Type} (ctx : JobContext F) :
    JobResult × JobContext F :=
  (JobResult.Success, ctx)

/-- Embedding of `JobContext::retry`: returns `JobResult::Retry`; the body
touches no field, so the context comes back unchanged. -/
def JobContext.retry {F : TypeId → Type} (ctx : JobContext F) :
    JobResult × JobContext F :=
  (JobResult.Retry, ctx)

/-- Embedding of `JobContext::kill`: returns `JobResult::Kill`; the body
touches no field, so the context comes back unchanged. -/
def JobContext.kill {F : TypeId → Type} (ctx : JobContext F) :
    JobResult × JobContext F :=
  (JobResult.Kill, ctx)

/-- One operation callable on a `JobContext`, used to state that a tracker can
only appear through `set_tracker`. Covers every method of the `impl` block
plus `Clone::clone`; `updateProgress` takes `&self` and leaves the context as
it was. -/
inductive CtxOp (F : TypeId → Type) where
  | insertOp (t : TypeId) (v : F t)
  | setTracker (tr : JobTracker)
  | updateProgress (p : Nat)
  | ack
  | retry
  | kill
  | clone

/-- Whether a context operation is a `set_tracker` call. -/
def CtxOp.isSetTracker {F : TypeId → Type} : CtxOp F → Bool
  | .setTracker _ => true
  | _ => false

/-- Apply one context operation, yielding the resulting context state. -/
def applyOp {F : TypeId → Type} (ctx : JobContext F) : CtxOp F → JobContext F
  | .insertOp t v => (ctx.insert t v).snd
  | .setTracker tr => ctx.set_tracker tr
  | .updateProgress _ => ctx
  | .ack => ctx.ack.snd
  | .retry => ctx.retry.snd
  | .kill => ctx.kill.snd
  | .clone => ctx.clone

/-! Embedding of `examples/sqlite/src/main.rs`. The `SqliteStorage`, `Monitor`
and `WorkerBuilder` implementations are repository code outside `src/`, so the
storage and bootstrap semantics are modelled from the spec where noted. -/

/-- Embedding of the example `Email` job payload. -/
structure Email where
  «to» : String
  subject : String
  text : String
  deriving DecidableEq, Repr

/-- The `Email` value built in iteration `i` of the `produce_jobs` loop. -/
def emailJob (i : Nat) : Email :=
  { «to» := "test" ++ toString i ++ "@example.com"
  , text := "Test backround job from Apalis"
  , subject := "Background email job" }

/-- Job state, from the spec data model (the state enum is declared in
`request.rs`, outside `src/`). -/
inductive JobState where
  | Pending
  | Running
  | Done
  | Failed
  | Killed
  deriving DecidableEq, Repr

/-- A persisted job envelope, reduced to the fields the claims touch: payload,
state and `run_at` (an instant in seconds). -/
structure Envelope where
  payload : Email
  state : JobState
  run_at : Int
  deriving DecidableEq, Repr

/-- Modelled from the spec: `schedule(job, run_at) -> id` persists a new
envelope in Pending state with the given future `run_at`
(`SqliteStorage::schedule` is not under `src/`). -/
def schedule (store : List Envelope) (job : Email) (run_at : Int) :
    List Envelope :=
  store ++ [{ payload := job, state := JobState.Pending, run_at := run_at }]

/-- Modelled from the spec: an envelope is claimable by `fetch_next` only when
it is Pending (or stalled Running, which `schedule` never produces) and its
`run_at` is not in the future: `run_at <= now`. -/
def claimable (e : Envelope) (now : Int) : Prop :=
  e.state = JobState.Pending ∧ e.run_at ≤ now

instance (e : Envelope) (now : Int) : Decidable (claimable e now) := by
  unfold claimable
  infer_instance

/-- Embedding of the example `produce_jobs` loop: for `i in 0..100`, call
`storage.schedule` with the `Email` of iteration `i` and
`run_at = Utc::now() + Duration::seconds(i)`. `Utc::now()` is read afresh in
each iteration, so the clock is a function `clock i` giving the instant
observed in iteration `i`. -/
def produce_jobs (clock : Nat → Int) (store : List Envelope) : List Envelope :=
  (List.range 100).foldl (fun st i => schedule st (emailJob i) (clock i + i)) store

/-- One middleware layer as declared in the example bootstrap. -/
inductive Layer where
  | rateLimit (permits : Nat) (per_millis : Nat)
  | trace
  deriving DecidableEq, Repr

/-- A worker as configured by the example factory closure: its declared layer
chain, in declaration order. -/
structure WorkerSpec where
  layers : List Layer
  deriving DecidableEq, Repr

/-- Modelled from the spec: `register_with_count(n, factory)` instantiates `n`
Workers from a factory closure that receives a worker index
(`Monitor::register_with_count` is not under `src/`). -/
def register_with_count (n : Nat) (factory : Nat → WorkerSpec) :
    List WorkerSpec :=
  (List.range n).map factory

/-- Embedding of the factory closure in the example `main`: every worker is
built with `RateLimitLayer::new(10, Duration::from_millis(10))` declared
first, then `TraceLayer::new()`; the worker index is ignored. -/
def mainWorkerFactory (_i : Nat) : WorkerSpec :=
  { layers := [Layer.rateLimit 10 10, Layer.trace] }

/-- The workers registered by the example `main`:
`Monitor::new().register_with_count(5, ...)`. -/
def mainWorkers : List WorkerSpec :=
  register_with_count 5 mainWorkerFactory

/-- The nesting of a layer chain around the handler. -/
inductive Wrapped where
  | handler
  | wrap (l : Layer) (inner : Wrapped)
  deriving DecidableEq, Repr

/-- Modelled from the spec: declared order is the wrapping order, the first
declared layer is outermost: `layer1(layer2(...layerN(handler)))`. -/
def buildChain : List Layer → Wrapped
  | [] => Wrapped.handler
  | l :: rest => Wrapped.wrap l (buildChain rest)

/-! Helper lemmas about the extensions bag. -/

/-- After inserting `v` under key `t`, looking up `t` yields `v`. -/
theorem Extensions.get_insert_self {F : TypeId → Type} (t : TypeId) (v : F t)
    (ext : Extensions F) : (Extensions.insert t v ext).snd.get t = some v := by
  induction ext with
  | nil => simp [Extensions.insert, Extensions.get]
  | cons e rest ih =>
    by_cases h : e.fst = t
    · subst h
      simp [Extensions.insert, Extensions.get]
    · simp [Extensions.insert, Extensions.get, h, ih]

/-- The value returned by `insert` is exactly the value `get` saw before. -/
theorem Extensions.insert_fst_eq_get {F : TypeId → Type} (t : TypeId) (v : F t)
    (ext : Extensions F) : (Extensions.insert t v ext).fst = ext.get t := by
  induction ext with
  | nil => simp [Extensions.insert, Extensions.get]
  | cons e rest ih =>
    by_cases h : e.fst = t
    · subst h
      simp [Extensions.insert, Extensions.get]
    · simp [Extensions.insert, Extensions.get, h, ih]

/-- `insert` on the context leaves the tracker alone. -/
theorem JobContext.insert_job_tracker {F : TypeId → Type} (ctx : JobContext F)
    (t : TypeId) (v : F t) : (ctx.insert t v).snd.job_tracker = ctx.job_tracker :=
  rfl

/-- Every operation other than `set_tracker` leaves the tracker field as it
was. -/
theorem applyOp_tracker_of_not_set {F : TypeId → Type} (ctx : JobContext F)
    (op : CtxOp F) (h : op.isSetTracker = false) :
    (applyOp ctx op).job_tracker = ctx.job_tracker := by
  cases op with
  | setTracker tr => simp [CtxOp.isSetTracker] at h
  | insertOp t v => rfl
  | updateProgress p => rfl
  | ack => rfl
  | retry => rfl
  | kill => rfl
  | clone => rfl

/-- A trackerless context stays trackerless under any sequence of operations
that contains no `set_tracker`. -/
theorem foldl_applyOp_tracker_none {F : TypeId → Type} (ops : List (CtxOp F)) :
    ∀ ctx : JobContext F, ctx.job_tracker = none →
      (∀ op ∈ ops, op.isSetTracker = false) →
      (List.foldl applyOp ctx ops).job_tracker = none := by
  induction ops with
  | nil => intro ctx hctx _; simpa using hctx
  | cons op rest ih =>
    intro ctx hctx hops
    have hop : op.isSetTracker = false := hops op (List.mem_cons_self op rest)
    have hrest : ∀ o ∈ rest, o.isSetTracker = false := by
      intro o ho
      exact hops o (List.mem_cons_of_mem op ho)
    have hstep : (applyOp ctx op).job_tracker = none := by
      rw [applyOp_tracker_of_not_set ctx op hop]
      exact hctx
    simpa using ih (applyOp ctx op) hstep hrest

/-! Claim theorems. -/

/-- C1: for every execution context and every value `v` stored under type key
`t`, after `insert v` a `data_opt` read of that type returns `v` unchanged; a
second `insert` of `w` at the same type replaces the stored value (a later
read returns `w`) and returns the previously stored `v`, while a first
`insert` at a type not yet present returns `none`. -/
theorem insert_get_roundtrip {F : TypeId → Type} (ctx : JobContext F)
    (t : TypeId) (v w : F t) (hfresh : ctx.data_opt t = none) :
    (ctx.insert t v).fst = none ∧
    (ctx.insert t v).snd.data_opt t = some v ∧
    ((ctx.insert t v).snd.insert t w).fst = some v ∧
    ((ctx.insert t v).snd.insert t w).snd.data_opt t = some w := by
  refine ⟨?_, ?_, ?_, ?_⟩
  · rw [JobContext.insert, Extensions.insert_fst_eq_get]
    exact hfresh
  · rw [JobContext.insert, JobContext.data_opt]
    exact Extensions.get_insert_self t v ctx.data
  · rw [JobContext.insert, JobContext.insert, Extensions.insert_fst_eq_get]
    exact Extensions.get_insert_self t v ctx.data
  · rw [JobContext.insert, JobContext.insert, JobContext.data_opt]
    exact Extensions.get_insert_self t w _

/-- Witness for C1 at a concrete context: the fresh context, type key 0,
values 1 then 2. -/
theorem insert_get_roundtrip_witness :
    ((JobContext.new (fun _ => Nat)).insert 0 1).fst = none ∧
    ((JobContext.new (fun _ => Nat)).insert 0 1).snd.data_opt 0 = some 1 ∧
    (((JobContext.new (fun _ => Nat)).insert 0 1).snd.insert 0 2).fst = some 1 ∧
    (((JobContext.new (fun _ => Nat)).insert 0 1).snd.insert 0 2).snd.data_opt 0
      = some 2 :=
  insert_get_roundtrip (JobContext.new (fun _ => Nat)) 0 1 2 rfl

/-- C2: with no tracker bound, `update_progress` is a safe no-op: a total
function that emits no Job Report, for any extensions bag and any progress
value; in particular it holds of the fresh context. -/
theorem update_progress_no_tracker_noop {F : TypeId → Type}
    (data : Extensions F) (p : Nat) :
    (JobContext.mk data none).update_progress p = [] ∧
    (JobContext.new F).update_progress p = [] :=
  ⟨rfl, rfl⟩

/-- C3: with a tracker bound, `update_progress p` emits exactly one Job Report
of kind progress carrying the tracker's job id and percent `p`, addressed to
the tracker's address; and when the receiving mailbox is gone, `do_send`
drops that report and still returns normally. -/
theorem update_progress_emits_one_report {F : TypeId → Type}
    (data : Extensions F) (tr : JobTracker) (p : Nat) :
    (JobContext.mk data (some tr)).update_progress p
      = [(tr.addr, JobReport.progress tr.job_id p)] ∧
    (JobReport.progress tr.job_id p).job_id = tr.job_id ∧
    (JobReport.progress tr.job_id p).kind = ReportKind.progress p ∧
    do_send none (JobReport.progress tr.job_id p) = none :=
  ⟨rfl, rfl, rfl, rfl⟩

/-- C4: `ack`, `retry` and `kill` return `JobResult::Success`,
`JobResult::Retry` and `JobResult::Kill` respectively, and each hands back the
context unchanged: its extensions bag and its tracker are exactly as before
the call, and no storage operation occurs (the functions take and touch
nothing but the context). -/
theorem ack_retry_kill_pure_outcomes {F : TypeId → Type}
    (ctx : JobContext F) :
    ctx.ack = (JobResult.Success, ctx) ∧
    ctx.retry = (JobResult.Retry, ctx) ∧
    ctx.kill = (JobResult.Kill, ctx) ∧
    ctx.ack.snd.data = ctx.data ∧ ctx.ack.snd.job_tracker = ctx.job_tracker ∧
    ctx.retry.snd.data = ctx.data ∧ ctx.retry.snd.job_tracker = ctx.job_tracker ∧
    ctx.kill.snd.data = ctx.data ∧ ctx.kill.snd.job_tracker = ctx.job_tracker :=
  ⟨rfl, rfl, rfl, rfl, rfl, rfl, rfl, rfl, rfl⟩

/-- C5: cloning a context (the rebuild used between retries) yields a context
whose extensions bag is empty — every type reads back `none`, in particular a
value inserted before the clone is absent — while the tracker handle is
preserved. -/
theorem clone_resets_extensions_keeps_tracker {F : TypeId → Type}
    (ctx : JobContext F) (t : TypeId) (v : F t) :
    (∀ s, ctx.clone.data_opt s = none) ∧
    (ctx.insert t v).snd.clone.data_opt t = none ∧
    ctx.clone.job_tracker = ctx.job_tracker ∧
    (ctx.insert t v).snd.clone.job_tracker = ctx.job_tracker :=
  ⟨fun _ => rfl, rfl, rfl, rfl⟩

/-- C6: a freshly constructed context (via `new` or `Default`) has no tracker
bound and an empty extensions bag (`data_opt` of every type returns `none`);
and a tracker is present only after `set_tracker`: any sequence of context
operations containing no `set_tracker`, starting from the fresh context,
leaves the tracker absent. -/
theorem fresh_context_no_tracker_until_set (F : TypeId → Type) :
    (JobContext.new F).job_tracker = none ∧
    (∀ t, (JobContext.new F).data_opt t = none) ∧
    JobContext.mkDefault F = JobContext.new F ∧
    (∀ ops : List (CtxOp F), (∀ op ∈ ops, op.isSetTracker = false) →
      (List.foldl applyOp (JobContext.new F) ops).job_tracker = none) := by
  refine ⟨rfl, fun _ => rfl, rfl, ?_⟩
  intro ops hops
  exact foldl_applyOp_tracker_none ops (JobContext.new F) rfl hops

/-- Witness for C6 at a concrete operation sequence without `set_tracker`:
insert, ack, update_progress, clone. -/
theorem fresh_context_no_tracker_until_set_witness :
    (List.foldl applyOp (JobContext.new (fun _ => Nat))
      [CtxOp.insertOp 0 7, CtxOp.ack, CtxOp.updateProgress 50, CtxOp.clone]
      ).job_tracker = none := by
  have h := fresh_context_no_tracker_until_set (fun _ => Nat)
  refine h.2.2.2 _ ?_
  intro op hop
  fin_cases hop <;> rfl

/-- C9: `set_tracker` is last-write-wins: after `set_tracker tr2` the bound
tracker returned by `get_tracker` is exactly `tr2`, replacing any previously
bound tracker, and a subsequent `update_progress` reports through `tr2`,
using its job id and address. -/
theorem set_tracker_last_write_wins {F : TypeId → Type} (ctx : JobContext F)
    (tr1 tr2 : JobTracker) (p : Nat) :
    (ctx.set_tracker tr2).get_tracker = some tr2 ∧
    ((ctx.set_tracker tr1).set_tracker tr2).get_tracker = some tr2 ∧
    ((ctx.set_tracker tr1).set_tracker tr2).update_progress p
      = [(tr2.addr, JobReport.progress tr2.job_id p)] :=
  ⟨rfl, rfl, rfl⟩

/-- C10: `update_progress` is total over the whole `u8` range and performs no
range validation: for every `p < 256`, including values above 100, the call
succeeds and, with a tracker bound, forwards `p` unchanged in the emitted
progress report. -/
theorem update_progress_total_forwards_any_u8 {F : TypeId → Type}
    (data : Extensions F) (tr : JobTracker) (p : Nat) (_hp : p < 256) :
    (JobContext.mk data (some tr)).update_progress p
      = [(tr.addr, JobReport.progress tr.job_id p)] ∧
    (JobContext.mk data none).update_progress p = [] :=
  ⟨rfl, rfl⟩

/-- Witness for C10 at `p = 255`, a `u8` value above 100, with a concrete
tracker. -/
theorem update_progress_total_forwards_any_u8_witness :
    100 < 255 ∧
    (JobContext.mk ([] : Extensions (fun _ => Nat))
        (some (JobTracker.mk "job-1" 4))).update_progress 255
      = [(4, JobReport.progress "job-1" 255)] :=
  ⟨by decide,
    (update_progress_total_forwards_any_u8 [] (JobTracker.mk "job-1" 4) 255
      (by decide)).1⟩

/-- The envelope persisted by iteration `i` of the `produce_jobs` loop. -/
def producedEnvelope (clock : Nat → Int) (i : Nat) : Envelope :=
  { payload := emailJob i, state := JobState.Pending, run_at := clock i + i }

/-- Folding `schedule` over a list of iteration indices appends one envelope
per index, in order. -/
theorem foldl_schedule_eq_append_map (clock : Nat → Int) (l : List Nat) :
    ∀ s : List Envelope,
      List.foldl (fun st i => schedule st (emailJob i) (clock i + i)) s l
        = s ++ l.map (producedEnvelope clock) := by
  induction l with
  | nil => intro s; simp
  | cons a l ih =>
    intro s
    simp only [List.foldl_cons, List.map_cons]
    rw [ih]
    simp [schedule, producedEnvelope]

/-- C7: the example producer enqueues exactly 100 jobs through the Storage
Port's `schedule`, the i-th (for `i` in `0..100`) with
`run_at = clock i + i` seconds — `clock i` being the `Utc::now()` read in
iteration `i` — and no job is claimable before its scheduled `run_at`. -/
theorem produce_jobs_schedules_100 (clock : Nat → Int) :
    (produce_jobs clock []).length = 100 ∧
    (∀ i, i < 100 →
      (produce_jobs clock [])[i]? = some (producedEnvelope clock i)) ∧
    (∀ i now, i < 100 → now < clock i + i →
      ∀ e, (produce_jobs clock [])[i]? = some e → ¬ claimable e now) := by
  have hall : produce_jobs clock [] = (List.range 100).map (producedEnvelope clock) := by
    rw [produce_jobs, foldl_schedule_eq_append_map clock (List.range 100) []]
    simp
  have hget : ∀ i, i < 100 →
      (produce_jobs clock [])[i]? = some (producedEnvelope clock i) := by
    intro i hi
    rw [hall, List.getElem?_map, List.getElem?_range hi]
    rfl
  refine ⟨by rw [hall]; simp, hget, ?_⟩
  intro i now hi hnow e hsome hc
  rw [hget i hi] at hsome
  have he : e = producedEnvelope clock i := by
    exact Option.some.inj hsome.symm
  rw [he] at hc
  have hle : clock i + (i : Int) ≤ now := hc.2
  omega

/-- Witness for C7 with the constant clock 0 at index 3: the fourth job is
scheduled at instant 3 and is not claimable at instant 2. -/
theorem produce_jobs_schedules_100_witness :
    (produce_jobs (fun _ => 0) []).length = 100 ∧
    ¬ claimable (producedEnvelope (fun _ => 0) 3) 2 := by
  have h := produce_jobs_schedules_100 (fun _ => 0)
  refine ⟨h.1, ?_⟩
  exact h.2.2 3 2 (by decide) (by decide) (producedEnvelope (fun _ => 0) 3)
    (h.2.1 3 (by decide))

/-- C8: the example bootstrap registers exactly 5 workers via
`register_with_count`, each built with the Rate Limit Layer configured with 10
permits per 10 milliseconds declared before the Trace Layer; in the chain
nesting of the spec, the Rate Limit Layer is therefore outermost. -/
theorem main_registers_five_workers_rate_limit_outermost :
    mainWorkers = List.replicate 5
      (WorkerSpec.mk [Layer.rateLimit 10 10, Layer.trace]) ∧
    buildChain [Layer.rateLimit 10 10, Layer.trace]
      = Wrapped.wrap (Layer.rateLimit 10 10)
          (Wrapped.wrap Layer.trace Wrapped.handler) :=
  ⟨rfl, rfl⟩

end Apalis
